import Mathlib

/-!
Verification development for the baby-names statistics program (src/main.py).

The program accumulates per-state, per-year name-count records into two
indexes (year -> name -> count and name -> year -> count), sorts each
year's names by descending count with descending-name tie-break, derives
per-year totals, and evaluates frequency/rank/trend queries on the result.

Python dictionaries are embedded as insertion-ordered association lists
(`Dict`).  Python exceptions (KeyError, ZeroDivisionError, ValueError,
IndexError, RuntimeError) are embedded as an `Except PyErr` result.
Python float arithmetic is modelled by exact rational arithmetic.
Python string comparison (lexicographic on code points) is embedded by
`pyStrLt`, and `str.lower` on the ASCII record data by `strLower`.
-/

/-- A Python dict, embedded as an insertion-ordered association list. -/
abbrev Dict (α β : Type) := List (α × β)

/-- First value stored under key `k`, if any (Python `d[k]` lookup). -/
def dictFind? [DecidableEq α] (d : Dict α β) (k : α) : Option β :=
  match d with
  | [] => none
  | (k', v) :: rest => if k' = k then some v else dictFind? rest k

/-- Python `d[k]` when `d` is a defaultdict with default `v0`. -/
def dictGetD [DecidableEq α] (d : Dict α β) (k : α) (v0 : β) : β :=
  (dictFind? d k).getD v0

/-- Python exceptions raised by the code paths embedded here. -/
inductive PyErr
  | keyError
  | zeroDivisionError
  | valueError
  | indexError
  | runtimeError
  deriving DecidableEq

/-- Python `d[k]` on a plain dict: the value, or a raised KeyError. -/
def keyFind [DecidableEq α] (d : Dict α β) (k : α) : Except PyErr β :=
  match dictFind? d k with
  | some v => .ok v
  | none => .error .keyError

/-- Python true division `a / b` on numbers: raises ZeroDivisionError on `b = 0`. -/
def pydiv (a b : Int) : Except PyErr ℚ :=
  if b = 0 then .error .zeroDivisionError else .ok ((a : ℚ) / (b : ℚ))

/-- Helper for `pyRange`: `n` consecutive integers starting at `a`. -/
def pyRangeAux (a : Int) : Nat → List Int
  | 0 => []
  | n + 1 => a :: pyRangeAux (a + 1) n

/-- Python `range(a, b)` over integers. -/
def pyRange (a b : Int) : List Int := pyRangeAux a (b - a).toNat

/-- Python string comparison: lexicographic on the code-point sequences. -/
def charListLt : List Char → List Char → Bool
  | [], [] => false
  | [], _ :: _ => true
  | _ :: _, [] => false
  | a :: as, b :: bs => if a < b then true else if b < a then false else charListLt as bs

/-- Python `s1 < s2` on strings. -/
def pyStrLt (a b : String) : Bool := charListLt a.data b.data

/-- ASCII lowercase of one character (the record data is ASCII). -/
def lowerChar (c : Char) : Char :=
  if 'A' ≤ c ∧ c ≤ 'Z' then Char.ofNat (c.toNat + 32) else c

/-- Python `s.lower()` on the ASCII record data. -/
def strLower (s : String) : String := ⟨s.data.map lowerChar⟩

/-- One decoded input row `(state, gender, year, name, count)` of a state data file. -/
structure RawRecord where
  state : String
  gender : String
  year : Int
  name : String
  count : Int
  deriving DecidableEq

/-- Python `d[k] += c` on a defaultdict(int): add into the existing entry,
or append a fresh entry at the end of the insertion order. -/
def bumpVal [DecidableEq α] (d : Dict α Int) (k : α) (c : Int) : Dict α Int :=
  match d with
  | [] => [(k, c)]
  | (k', v) :: rest => if k' = k then (k', v + c) :: rest else (k', v) :: bumpVal rest k c

/-- Python `t[k][j] += c` on a defaultdict of defaultdict(int): auto-vivify
the inner dict for `k` if absent, then bump the inner entry for `j`. -/
def bumpTab [DecidableEq α] [DecidableEq β] (t : Dict α (Dict β Int)) (k : α) (j : β)
    (c : Int) : Dict α (Dict β Int) :=
  match t with
  | [] => [(k, bumpVal [] j c)]
  | (k', d) :: rest =>
      if k' = k then (k', bumpVal d j c) :: rest else (k', d) :: bumpTab rest k j c

/-- Year-indexed table `year -> name -> count` (`year_name_counts`). -/
abbrev YearNameCounts := Dict Int (Dict String Int)

/-- Name-indexed table `name -> year -> count` (`name_year_counts`). -/
abbrev NameYearCounts := Dict String (Dict Int Int)

/-- Per-year totals `year -> total count` (`year_total_counts`). -/
abbrev YearTotalCounts := Dict Int Int

/-- Loop body of `load_state_data_`: filter on gender, lowercase the name,
drop records with `count <= 0`, and add the count into both tables. -/
def processRecord (gender : String) (tabs : YearNameCounts × NameYearCounts)
    (r : RawRecord) : YearNameCounts × NameYearCounts :=
  if r.gender ≠ gender then tabs
  else
    let name := strLower r.name
    if r.count ≤ 0 then tabs
    else (bumpTab tabs.1 r.year name r.count, bumpTab tabs.2 name r.year r.count)

/-- Accumulation of a batch of raw records into the two sparse tables
(`load_state_data_` applied over all rows of all requested states,
starting from empty defaultdicts). -/
def accumulateRecords (gender : String) (records : List RawRecord) :
    YearNameCounts × NameYearCounts :=
  records.foldl (processRecord gender) ([], [])

/-- Comparison used by `items.sort(reverse=True)` on `(count, name)` pairs:
`a` may precede `b` iff `b < a` or `b = a` in Python tuple order. -/
def descPairLe (a b : Int × String) : Prop :=
  b.1 < a.1 ∨ (b.1 = a.1 ∧ (pyStrLt b.2 a.2 = true ∨ b.2 = a.2))

instance : DecidableRel descPairLe := fun a b =>
  inferInstanceAs (Decidable (b.1 < a.1 ∨ (b.1 = a.1 ∧ (pyStrLt b.2 a.2 = true ∨ b.2 = a.2))))

/-- Body of the per-year loop of `sort_year_name_counts`: build the
`(count, name)` pair list, sort it descending, and rebuild a dict. -/
def sortOneYear (d : Dict String Int) : Dict String Int :=
  let items := d.map (fun p => (p.2, p.1))
  (items.insertionSort descPairLe).map (fun p => (p.2, p.1))

/-- `sort_year_name_counts`: for each year of the global observed range,
an ordered-by-descending-`(count, name)` view of that year's names.
Years with no records get an empty mapping (defaultdict auto-vivification);
`min()` / `max()` on an empty key set raise ValueError. -/
def sort_year_name_counts (t : YearNameCounts) : Except PyErr YearNameCounts :=
  match (t.map Prod.fst).min?, (t.map Prod.fst).max? with
  | some year_min, some year_max =>
      .ok ((pyRange year_min (year_max + 1)).map fun y => (y, sortOneYear (dictGetD t y [])))
  | _, _ => .error .valueError

/-- Sequential effectful map in `Except` (a Python loop building a list,
propagating the first raised exception). -/
def mapE (f : α → Except ε β) : List α → Except ε (List β)
  | [] => .ok []
  | x :: xs =>
    match f x with
    | .error e => .error e
    | .ok y =>
      match mapE f xs with
      | .error e => .error e
      | .ok ys => .ok (y :: ys)

/-- `sort_name_year_counts`: for each name, the dense year range
`[min observed year, max observed year]` with defaultdict zero-fill. -/
def sort_name_year_counts (t : NameYearCounts) : Except PyErr NameYearCounts :=
  mapE (fun p =>
    match (p.2.map Prod.fst).min?, (p.2.map Prod.fst).max? with
    | some year_min, some year_max =>
        .ok (p.1, (pyRange year_min (year_max + 1)).map fun y => (y, dictGetD p.2 y 0))
    | _, _ => .error .valueError) t

/-- Sum of a dict's values (Python `sum(name_counts.values())`). -/
def sumValues (d : Dict α Int) : Int := (d.map Prod.snd).sum

/-- The `year_total_counts` comprehension in `main`: each year of the sorted
year table mapped to the sum of its name counts. -/
def year_total_counts (ync : YearNameCounts) : YearTotalCounts :=
  ync.map fun p => (p.1, sumValues p.2)

/-- Index of the first occurrence of `name`
(Python `next(idx for idx, n in enumerate(keys) if n == name)`). -/
def nextIndexOf (name : String) : List String → Option Nat
  | [] => none
  | n :: rest => if n = name then some 0 else (nextIndexOf name rest).map (· + 1)

/-- Rank of a name within one year's sorted table, from `plot_trends_for_name`:
one plus the position of the name in the year's key order. -/
def rank_in_year (d : Dict String Int) (name : String) : Option Nat :=
  (nextIndexOf name (d.map Prod.fst)).map (· + 1)

/-- The `frequencies` series of `plot_trends_for_name`: for each year of the
name's dense range, `count / year_total_counts[year]`.  The name lookup
models the explicit RuntimeError check; the division is unguarded. -/
def frequency_series (name : String) (nyc : NameYearCounts) (ytc : YearTotalCounts) :
    Except PyErr (Dict Int ℚ) :=
  match dictFind? nyc name with
  | none => .error .runtimeError
  | some counts =>
      mapE (fun p =>
        match dictFind? ytc p.1 with
        | none => .error .keyError
        | some t =>
          match pydiv p.2 t with
          | .error e => .error e
          | .ok f => .ok (p.1, f)) counts

/-- Loop of `is_name_frequency_above_threshold` over the year window. -/
def aboveLoop (name : String) (min_frequency : ℚ) (ync : YearNameCounts)
    (ytc : YearTotalCounts) : List Int → Except PyErr Bool
  | [] => .ok true
  | year :: rest =>
    match dictFind? ync year with
    | none => .error .keyError
    | some name_counts =>
      match dictFind? name_counts name with
      | none => .ok false
      | some c =>
        match dictFind? ytc year with
        | none => .error .keyError
        | some t =>
          match pydiv c t with
          | .error e => .error e
          | .ok f => if f < min_frequency then .ok false else aboveLoop name min_frequency ync ytc rest

/-- `is_name_frequency_above_threshold`: true iff every year of
`[year_min, year_max]` has the name present with frequency at least
`min_frequency`; absence in a year returns false immediately. -/
def is_name_frequency_above_threshold (name : String) (min_frequency : ℚ)
    (year_min year_max : Int) (ync : YearNameCounts) (ytc : YearTotalCounts) :
    Except PyErr Bool :=
  aboveLoop name min_frequency ync ytc (pyRange year_min (year_max + 1))

/-- Summation loops of `is_name_frequency_falling`: accumulate the name's
count and the year total over the given years. -/
def fallingLoop (ync : YearNameCounts) (ytc : YearTotalCounts) (name : String) :
    List Int → Int → Int → Except PyErr (Int × Int)
  | [], name_count, total_count => .ok (name_count, total_count)
  | year :: rest, name_count, total_count =>
    match dictFind? ync year with
    | none => .error .keyError
    | some name_counts =>
      match dictFind? name_counts name with
      | none => .error .keyError
      | some c =>
        match dictFind? ytc year with
        | none => .error .keyError
        | some t => fallingLoop ync ytc name rest (name_count + c) (total_count + t)

/-- `is_name_frequency_falling`: split the window at
`year_mid = year_min + (year_max - year_min + 2) // 2`, pool counts and
totals over each half, and compare the pooled frequencies. -/
def is_name_frequency_falling (name : String) (year_min year_max : Int)
    (ync : YearNameCounts) (ytc : YearTotalCounts) (tolerance : ℚ) :
    Except PyErr Bool :=
  let year_mid := year_min + Int.fdiv (year_max - year_min + 2) 2
  match fallingLoop ync ytc name (pyRange year_min year_mid) 0 0 with
  | .error e => .error e
  | .ok (name_count1, total_count1) =>
    match fallingLoop ync ytc name (pyRange year_mid (year_max + 1)) 0 0 with
    | .error e => .error e
    | .ok (name_count2, total_count2) =>
      match pydiv name_count1 total_count1 with
      | .error e => .error e
      | .ok frequency1 =>
        match pydiv name_count2 total_count2 with
        | .error e => .error e
        | .ok frequency2 => .ok (decide (frequency1 > (1 + tolerance) * frequency2))

/-- The `keep_name` closure of `show_filtered_top_names`: sustained over the
trailing 50 years, and not falling over the trailing 10-, 20- and 50-year
windows (default tolerance 0.25 at every call site). -/
def keep_name (year : Int) (min_frequency : ℚ) (ync : YearNameCounts)
    (ytc : YearTotalCounts) (name : String) : Except PyErr Bool :=
  match is_name_frequency_above_threshold name min_frequency (year - 50 + 1) year ync ytc with
  | .error e => .error e
  | .ok above =>
    if !above then .ok false else
    match is_name_frequency_falling name (year - 10 + 1) year ync ytc (1/4) with
    | .error e => .error e
    | .ok f10 =>
      if f10 then .ok false else
      match is_name_frequency_falling name (year - 20 + 1) year ync ytc (1/4) with
      | .error e => .error e
      | .ok f20 =>
        if f20 then .ok false else
        match is_name_frequency_falling name (year - 50 + 1) year ync ytc (1/4) with
        | .error e => .error e
        | .ok f50 => if f50 then .ok false else .ok true

/-- Effectful filter in `Except` (Python `filter` consumed by a loop,
propagating the first raised exception). -/
def filterE (f : α → Except ε Bool) : List α → Except ε (List α)
  | [] => .ok []
  | x :: xs =>
    match f x with
    | .error e => .error e
    | .ok b =>
      match filterE f xs with
      | .error e => .error e
      | .ok rest => .ok (if b then x :: rest else rest)

/-- Candidate selection and filtering of `show_filtered_top_names`: the first
`num_candidates` names of the target year, the pool's minimum frequency from
its last (lowest-ranked) member, then the `keep_name` filter.  The printing
of the surviving names is omitted; the function returns the kept names. -/
def show_filtered_top_names (num_candidates : Nat) (year : Int)
    (ync : YearNameCounts) (ytc : YearTotalCounts) : Except PyErr (List String) :=
  match dictFind? ync year with
  | none => .error .keyError
  | some year_table =>
    let names := (year_table.map Prod.fst).take num_candidates
    match names.getLast? with
    | none => .error .indexError
    | some last_name =>
      match dictFind? year_table last_name with
      | none => .error .keyError
      | some c =>
        match dictFind? ytc year with
        | none => .error .keyError
        | some t =>
          match pydiv c t with
          | .error e => .error e
          | .ok min_frequency => filterE (keep_name year min_frequency ync ytc) names

/-- Strict order that consecutive entries of a sorted year table satisfy:
the later entry has a smaller count, or an equal count and a smaller name. -/
def yearEntryAfter (a b : String × Int) : Prop :=
  b.2 < a.2 ∨ (b.2 = a.2 ∧ pyStrLt b.1 a.1 = true)

/-- Well-formedness of an accumulated two-level table: distinct outer keys
and distinct keys within every inner dict (automatic for Python dicts). -/
def TabNodup [DecidableEq α] [DecidableEq β] (t : Dict α (Dict β Int)) : Prop :=
  (t.map Prod.fst).Nodup ∧ ∀ p ∈ t, (p.2.map Prod.fst).Nodup

/-- One-table view of the accumulation step: records surviving the gender
and positive-count filters bump the entry at `(key1 r, key2 r)`. -/
def stepTab [DecidableEq α] [DecidableEq β] (key1 : RawRecord → α) (key2 : RawRecord → β)
    (gender : String) (t : Dict α (Dict β Int)) (r : RawRecord) : Dict α (Dict β Int) :=
  if r.gender = gender ∧ 0 < r.count then bumpTab t (key1 r) (key2 r) r.count else t

/-- Two-level lookup `t[k][j]` as an optional value. -/
def tabLookup [DecidableEq α] [DecidableEq β] (t : Dict α (Dict β Int)) (k : α) (j : β) :
    Option Int :=
  (dictFind? t k).bind (fun d => dictFind? d j)

/-- Two-level lookup with the defaultdict default `0`. -/
def tabVal [DecidableEq α] [DecidableEq β] (t : Dict α (Dict β Int)) (k : α) (j : β) : Int :=
  (tabLookup t k j).getD 0

/-- The worked example of the specification: three male records for year 2000. -/
def exampleRecords : List RawRecord :=
  [⟨"CA", "M", 2000, "Sam", 10⟩, ⟨"NY", "M", 2000, "Sam", 5⟩, ⟨"CA", "M", 2000, "Max", 15⟩]

/-- Year table for the falling-frequency example: name x has count 2 per year
in 1990-1994 and count 1 per year in 1995-1999. -/
def fallingExampleYnc : YearNameCounts :=
  [(1990, [("x", 2)]), (1991, [("x", 2)]), (1992, [("x", 2)]), (1993, [("x", 2)]),
   (1994, [("x", 2)]), (1995, [("x", 1)]), (1996, [("x", 1)]), (1997, [("x", 1)]),
   (1998, [("x", 1)]), (1999, [("x", 1)])]

/-- Year totals for the falling-frequency example: 100 per year, so the
pooled early-half frequency is 10/500 = 0.02 and the late half 5/500 = 0.01. -/
def fallingExampleYtc : YearTotalCounts :=
  [(1990, 100), (1991, 100), (1992, 100), (1993, 100), (1994, 100),
   (1995, 100), (1996, 100), (1997, 100), (1998, 100), (1999, 100)]

/-- Records producing a year with no data inside a name's dense range:
nothing at all was recorded for 1901. -/
def c4Records : List RawRecord :=
  [⟨"CA", "M", 1900, "Ann", 3⟩, ⟨"CA", "M", 1902, "Ann", 4⟩]

/-- The sorted year table obtained from `c4Records`. -/
def c4YearTable : YearNameCounts :=
  [(1900, [("ann", 3)]), (1901, []), (1902, [("ann", 4)])]

/-- The dense name table obtained from `c4Records`. -/
def c4NameTable : NameYearCounts :=
  [("ann", [(1900, 3), (1901, 0), (1902, 4)])]

/-- A small dataset whose years span 2000-2001 only. -/
def c5YearTable : YearNameCounts := [(2000, [("a", 1)]), (2001, [("a", 1)])]

/-- Year totals for `c5YearTable`-shaped queries. -/
def c5TotalTable : YearTotalCounts := [(2000, 100), (2001, 100)]
/-! ## Order facts for the Python tuple comparison -/

theorem charListLt_irrefl (l : List Char) : charListLt l l = false := by
  induction l with
  | nil => rfl
  | cons a as ih => simp [charListLt, lt_irrefl, ih]

theorem charListLt_asymm : ∀ {a b : List Char},
    charListLt a b = true → charListLt b a = false
  | [], [], h => by simp [charListLt] at h
  | [], _ :: _, _ => rfl
  | _ :: _, [], h => by simp [charListLt] at h
  | x :: xs, y :: ys, h => by
    by_cases hxy : x < y
    · have hyx : ¬ y < x := asymm hxy
      simp [charListLt, hyx, hxy]
    · by_cases hyx : y < x
      · simp [charListLt, hxy, hyx] at h
      · have := charListLt_asymm (a := xs) (b := ys) (by simpa [charListLt, hxy, hyx] using h)
        simp [charListLt, hxy, hyx, this]

theorem charListLt_conn : ∀ {a b : List Char},
    charListLt a b = false → charListLt b a = false → a = b
  | [], [], _, _ => rfl
  | [], _ :: _, h, _ => by simp [charListLt] at h
  | _ :: _, [], _, h => by simp [charListLt] at h
  | x :: xs, y :: ys, h, h' => by
    by_cases hxy : x < y
    · simp [charListLt, hxy] at h
    · by_cases hyx : y < x
      · simp [charListLt, hyx] at h'
      · have hx : x = y := le_antisymm (not_lt.mp hyx) (not_lt.mp hxy)
        have hs : xs = ys :=
          charListLt_conn (by simpa [charListLt, hxy, hyx] using h)
            (by simpa [charListLt, hxy, hyx] using h')
        rw [hx, hs]

theorem charListLt_trans : ∀ {a b c : List Char},
    charListLt a b = true → charListLt b c = true → charListLt a c = true
  | [], [], _, h, _ => by simp [charListLt] at h
  | [], _ :: _, [], _, h => by simp [charListLt] at h
  | [], _ :: _, _ :: _, _, _ => rfl
  | _ :: _, [], _, h, _ => by simp [charListLt] at h
  | _ :: _, _ :: _, [], _, h => by simp [charListLt] at h
  | x :: xs, y :: ys, z :: zs, h, h' => by
    by_cases hxy : x < y
    · by_cases hyz : y < z
      · simp [charListLt, lt_trans hxy hyz]
      · by_cases hzy : z < y
        · simp [charListLt, hyz, hzy] at h'
        · have : y = z := le_antisymm (not_lt.mp hzy) (not_lt.mp hyz)
          simp [charListLt, this ▸ hxy]
    · by_cases hyx : y < x
      · simp [charListLt, hxy, hyx] at h
      · have hx : x = y := le_antisymm (not_lt.mp hyx) (not_lt.mp hxy)
        have hxs : charListLt xs ys = true := by simpa [charListLt, hxy, hyx] using h
        by_cases hyz : y < z
        · simp [charListLt, hx ▸ hyz]
        · by_cases hzy : z < y
          · simp [charListLt, hyz, hzy] at h'
          · have hy : y = z := le_antisymm (not_lt.mp hzy) (not_lt.mp hyz)
            have hys : charListLt ys zs = true := by simpa [charListLt, hyz, hzy] using h'
            have hxz : ¬ x < z := by rw [hx, hy]; exact lt_irrefl z
            have hzx : ¬ z < x := by rw [hx, hy]; exact lt_irrefl z
            simp [charListLt, hxz, hzx, charListLt_trans hxs hys]

theorem pyStrLt_asymm {a b : String} (h : pyStrLt a b = true) : pyStrLt b a = false :=
  charListLt_asymm h

theorem pyStrLt_conn {a b : String} (h : pyStrLt a b = false) (h' : pyStrLt b a = false) :
    a = b := by
  cases a with
  | mk da => cases b with
    | mk db => exact congrArg String.mk (charListLt_conn h h')

theorem pyStrLt_trans {a b c : String} (h : pyStrLt a b = true) (h' : pyStrLt b c = true) :
    pyStrLt a c = true :=
  charListLt_trans h h'

theorem pyStrLt_irrefl (a : String) : pyStrLt a a = false :=
  charListLt_irrefl a.data

theorem descPairLe_total : IsTotal (Int × String) descPairLe := by
  constructor
  intro a b
  rcases lt_trichotomy a.1 b.1 with h | h | h
  · exact Or.inr (Or.inl h)
  · by_cases hs : pyStrLt b.2 a.2 = true
    · exact Or.inl (Or.inr ⟨h.symm, Or.inl hs⟩)
    · by_cases hs' : pyStrLt a.2 b.2 = true
      · exact Or.inr (Or.inr ⟨h, Or.inl hs'⟩)
      · exact Or.inl (Or.inr ⟨h.symm, Or.inr
          (pyStrLt_conn (Bool.eq_false_iff.mpr hs) (Bool.eq_false_iff.mpr hs'))⟩)
  · exact Or.inl (Or.inl h)

theorem descPairLe_trans : IsTrans (Int × String) descPairLe := by
  constructor
  rintro a b c (hab | ⟨hab, habs⟩) hbc
  · rcases hbc with hbc | ⟨hbc, _⟩
    · exact Or.inl (lt_trans hbc hab)
    · exact Or.inl (hbc ▸ hab)
  · rcases hbc with hbc | ⟨hbc, hbcs⟩
    · exact Or.inl (hab ▸ hbc)
    · refine Or.inr ⟨hbc.trans hab, ?_⟩
      rcases habs with habs | habs
      · rcases hbcs with hbcs | hbcs
        · exact Or.inl (pyStrLt_trans hbcs habs)
        · exact Or.inl (hbcs ▸ habs)
      · rcases hbcs with hbcs | hbcs
        · exact Or.inl (habs ▸ hbcs)
        · exact Or.inr (hbcs.trans habs)

/-! ## Association-list and accumulation lemmas -/

theorem dictFind?_mem [DecidableEq α] {d : Dict α β} {k : α} {v : β}
    (h : dictFind? d k = some v) : (k, v) ∈ d := by
  induction d with
  | nil => simp [dictFind?] at h
  | cons p rest ih =>
    obtain ⟨k', v'⟩ := p
    by_cases hk : k' = k
    · subst hk
      simp [dictFind?] at h
      simp [h]
    · simp [dictFind?, hk] at h
      exact List.mem_cons_of_mem _ (ih h)

theorem sortOneYear_pairwise {d : Dict String Int}
    (hn : (d.map Prod.fst).Nodup) : (sortOneYear d).Pairwise yearEntryAfter := by
  haveI := descPairLe_total
  haveI := descPairLe_trans
  set items : List (Int × String) := d.map (fun p => (p.2, p.1)) with hitems
  have hsnd : items.map Prod.snd = d.map Prod.fst := by
    simp [hitems, List.map_map, Function.comp]
  have hitemsNodup : items.Nodup := List.Nodup.of_map Prod.snd (by rw [hsnd]; exact hn)
  have hperm : (items.insertionSort descPairLe).Perm items :=
    List.perm_insertionSort descPairLe items
  have hsorted : (items.insertionSort descPairLe).Pairwise descPairLe :=
    List.sorted_insertionSort descPairLe items
  have hnodup : (items.insertionSort descPairLe).Nodup := hperm.nodup_iff.mpr hitemsNodup
  have hstrict : (items.insertionSort descPairLe).Pairwise
      (fun a b : Int × String => b.1 < a.1 ∨ (b.1 = a.1 ∧ pyStrLt b.2 a.2 = true)) := by
    refine (hsorted.and hnodup).imp ?_
    rintro a b ⟨hle | ⟨hc, hs | hs⟩, hne⟩
    · exact Or.inl hle
    · exact Or.inr ⟨hc, hs⟩
    · exact absurd (Prod.ext hc hs).symm hne
  rw [sortOneYear]
  rw [List.pairwise_map]
  exact hstrict

theorem mem_keys_bumpVal [DecidableEq α] {d : Dict α Int} {k x : α} {c : Int} :
    x ∈ (bumpVal d k c).map Prod.fst ↔ x ∈ d.map Prod.fst ∨ x = k := by
  induction d with
  | nil => simp [bumpVal]
  | cons p rest ih =>
    obtain ⟨k', v⟩ := p
    by_cases hk : k' = k
    · subst hk
      simp [bumpVal]
      tauto
    · simp [bumpVal, hk, ih]
      tauto

theorem nodup_keys_bumpVal [DecidableEq α] {d : Dict α Int} {k : α} {c : Int}
    (h : (d.map Prod.fst).Nodup) : ((bumpVal d k c).map Prod.fst).Nodup := by
  induction d with
  | nil => simp [bumpVal]
  | cons p rest ih =>
    obtain ⟨k', v⟩ := p
    rw [List.map_cons, List.nodup_cons] at h
    by_cases hk : k' = k
    · subst hk
      rw [show bumpVal ((k', v) :: rest) k' c = (k', v + c) :: rest from by simp [bumpVal]]
      rw [List.map_cons, List.nodup_cons]
      exact h
    · simp only [bumpVal, if_neg hk]
      rw [List.map_cons, List.nodup_cons]
      refine ⟨?_, ih h.2⟩
      rw [mem_keys_bumpVal]
      rintro (hin | rfl)
      · exact h.1 hin
      · exact hk rfl

theorem mem_keys_bumpTab [DecidableEq α] [DecidableEq β] {t : Dict α (Dict β Int)}
    {k x : α} {j : β} {c : Int} :
    x ∈ (bumpTab t k j c).map Prod.fst ↔ x ∈ t.map Prod.fst ∨ x = k := by
  induction t with
  | nil => simp [bumpTab]
  | cons p rest ih =>
    obtain ⟨k', d⟩ := p
    by_cases hk : k' = k
    · subst hk
      rw [show bumpTab ((k', d) :: rest) k' j c = (k', bumpVal d j c) :: rest from by
        simp [bumpTab]]
      simp
      tauto
    · simp only [bumpTab, if_neg hk]
      simp [ih]
      tauto

theorem nodup_keys_bumpTab [DecidableEq α] [DecidableEq β] {t : Dict α (Dict β Int)}
    {k : α} {j : β} {c : Int} (h : (t.map Prod.fst).Nodup) :
    ((bumpTab t k j c).map Prod.fst).Nodup := by
  induction t with
  | nil => simp [bumpTab]
  | cons p rest ih =>
    obtain ⟨k', d⟩ := p
    rw [List.map_cons, List.nodup_cons] at h
    by_cases hk : k' = k
    · subst hk
      rw [show bumpTab ((k', d) :: rest) k' j c = (k', bumpVal d j c) :: rest from by
        simp [bumpTab]]
      rw [List.map_cons, List.nodup_cons]
      exact h
    · simp only [bumpTab, if_neg hk]
      rw [List.map_cons, List.nodup_cons]
      refine ⟨?_, ih h.2⟩
      rw [mem_keys_bumpTab]
      rintro (hin | rfl)
      · exact h.1 hin
      · exact hk rfl

theorem inner_mem_bumpTab [DecidableEq α] [DecidableEq β] {t : Dict α (Dict β Int)}
    {k : α} {j : β} {c : Int} {p : α × Dict β Int} (hp : p ∈ bumpTab t k j c) :
    p ∈ t ∨ ∃ d k', (dictFind? t k = some d ∨ d = []) ∧ p = (k', bumpVal d j c) := by
  induction t with
  | nil =>
    simp [bumpTab] at hp
    exact Or.inr ⟨[], k, Or.inr rfl, hp⟩
  | cons q rest ih =>
    obtain ⟨k', d⟩ := q
    by_cases hk : k' = k
    · subst hk
      rw [show bumpTab ((k', d) :: rest) k' j c = (k', bumpVal d j c) :: rest from by
        simp [bumpTab]] at hp
      rcases List.mem_cons.mp hp with rfl | hp
      · exact Or.inr ⟨d, k', Or.inl (by simp [dictFind?]), rfl⟩
      · exact Or.inl (List.mem_cons_of_mem _ hp)
    · simp only [bumpTab, if_neg hk] at hp
      rcases List.mem_cons.mp hp with rfl | hp
      · exact Or.inl (List.mem_cons_self _ _)
      · rcases ih hp with hin | ⟨d0, k0, hd0, hpeq⟩
        · exact Or.inl (List.mem_cons_of_mem _ hin)
        · refine Or.inr ⟨d0, k0, ?_, hpeq⟩
          rcases hd0 with hd0 | hd0
          · exact Or.inl (by simp [dictFind?, hk, hd0])
          · exact Or.inr hd0

theorem tabNodup_bumpTab [DecidableEq α] [DecidableEq β] {t : Dict α (Dict β Int)}
    {k : α} {j : β} {c : Int} (h : TabNodup t) : TabNodup (bumpTab t k j c) := by
  refine ⟨nodup_keys_bumpTab h.1, ?_⟩
  intro p hp
  rcases inner_mem_bumpTab hp with hin | ⟨d, k', hd, rfl⟩
  · exact h.2 p hin
  · rcases hd with hd | rfl
    · exact nodup_keys_bumpVal (h.2 _ (dictFind?_mem hd))
    · exact nodup_keys_bumpVal (by simp)

theorem tabNodup_accumulate (gender : String) (l : List RawRecord) :
    TabNodup (accumulateRecords gender l).1 ∧ TabNodup (accumulateRecords gender l).2 := by
  suffices h : ∀ tabs : YearNameCounts × NameYearCounts, TabNodup tabs.1 → TabNodup tabs.2 →
      TabNodup (l.foldl (processRecord gender) tabs).1 ∧
      TabNodup (l.foldl (processRecord gender) tabs).2 by
    exact h ([], []) ⟨by simp, by simp⟩ ⟨by simp, by simp⟩
  induction l with
  | nil => exact fun tabs h1 h2 => ⟨h1, h2⟩
  | cons r rest ih =>
    intro tabs h1 h2
    rw [List.foldl_cons]
    rcases Decidable.em (r.gender ≠ gender) with hg | hg
    · rw [show processRecord gender tabs r = tabs from by simp [processRecord, hg]]
      exact ih tabs h1 h2
    · rcases Decidable.em (r.count ≤ 0) with hc | hc
      · rw [show processRecord gender tabs r = tabs from by simp [processRecord, hg, hc]]
        exact ih tabs h1 h2
      · rw [show processRecord gender tabs r =
            (bumpTab tabs.1 r.year (strLower r.name) r.count,
             bumpTab tabs.2 (strLower r.name) r.year r.count) from by
          simp [processRecord, hg, hc]]
        exact ih _ (tabNodup_bumpTab h1) (tabNodup_bumpTab h2)

/-! ## C1: ordering of the year table -/

/-- C1: in every indexed year table produced by the pipeline, names are
ordered by count descending with ties broken by name descending
(lexicographic on the normalized lowercase name); in particular the
spec's example records with gender filter M yield year 2000 order
[sam: 15, max: 15]. -/
theorem c1_year_table_order :
    (∀ (gender : String) (l : List RawRecord) (ync : YearNameCounts),
      sort_year_name_counts (accumulateRecords gender l).1 = .ok ync →
      ∀ y d, (y, d) ∈ ync → d.Pairwise yearEntryAfter) ∧
    sort_year_name_counts (accumulateRecords "M" exampleRecords).1 =
      .ok [(2000, [("sam", 15), ("max", 15)])] := by
  constructor
  · intro gender l ync h y d hmem
    rcases hmin : ((accumulateRecords gender l).1.map Prod.fst).min? with _ | ymin
    · rw [sort_year_name_counts, hmin] at h
      exact absurd h (by simp)
    rcases hmax : ((accumulateRecords gender l).1.map Prod.fst).max? with _ | ymax
    · rw [sort_year_name_counts, hmin, hmax] at h
      exact absurd h (by simp)
    rw [sort_year_name_counts, hmin, hmax] at h
    have hync : ync = (pyRange ymin (ymax + 1)).map
        fun y => (y, sortOneYear (dictGetD (accumulateRecords gender l).1 y [])) := by
      exact (Except.ok.injEq _ _).mp h.symm
    subst hync
    rcases List.mem_map.mp hmem with ⟨y0, _, hy0⟩
    have hd : d = sortOneYear (dictGetD (accumulateRecords gender l).1 y0 []) :=
      (congrArg Prod.snd hy0).symm
    subst hd
    apply sortOneYear_pairwise
    rcases hfind : dictFind? (accumulateRecords gender l).1 y0 with _ | d0
    · simp [dictGetD, hfind]
    · rw [dictGetD, hfind]
      exact (tabNodup_accumulate gender l).1.2 _ (dictFind?_mem hfind)
  · rfl

/-- C1 witness: the example year-2000 table satisfies the strict ordering. -/
theorem c1_year_table_order_witness :
    ([("sam", 15), ("max", 15)] : Dict String Int).Pairwise yearEntryAfter :=
  c1_year_table_order.1 "M" exampleRecords [(2000, [("sam", 15), ("max", 15)])]
    c1_year_table_order.2 2000 _ (by simp)

/-! ## Range lemmas -/

theorem pyRangeAux_length (a : Int) (n : Nat) : (pyRangeAux a n).length = n := by
  induction n generalizing a with
  | zero => rfl
  | succ n ih => simp [pyRangeAux, ih]

theorem mem_pyRangeAux {a x : Int} {n : Nat} :
    x ∈ pyRangeAux a n ↔ a ≤ x ∧ x < a + n := by
  induction n generalizing a with
  | zero => simp [pyRangeAux]
  | succ n ih =>
    simp [pyRangeAux, ih]
    constructor
    · rintro (rfl | ⟨h1, h2⟩) <;> constructor <;> omega
    · rintro ⟨h1, h2⟩
      rcases eq_or_lt_of_le h1 with rfl | h1
      · exact Or.inl rfl
      · exact Or.inr ⟨by omega, by omega⟩

theorem mem_pyRange {a b x : Int} : x ∈ pyRange a b ↔ a ≤ x ∧ x < b := by
  rw [pyRange, mem_pyRangeAux]
  omega

theorem pyRange_length (a b : Int) : (pyRange a b).length = (b - a).toNat :=
  pyRangeAux_length a _

theorem pyRange_ne_nil {a b : Int} : pyRange a b ≠ [] ↔ a < b := by
  rw [← List.length_pos_iff_ne_nil, pyRange_length]
  omega

theorem dictFind?_pyRangeAux_map {g : Int → β} {a x : Int} {n : Nat} :
    dictFind? ((pyRangeAux a n).map fun y => (y, g y)) x =
      if a ≤ x ∧ x < a + n then some (g x) else none := by
  induction n generalizing a with
  | zero =>
    rw [if_neg (by omega)]
    rfl
  | succ n ih =>
    simp only [pyRangeAux, List.map_cons, dictFind?]
    by_cases hx : a = x
    · subst hx
      rw [if_pos rfl, if_pos (by constructor <;> push_cast <;> omega)]
    · rw [if_neg hx, ih]
      by_cases h1 : a + 1 ≤ x ∧ x < a + 1 + n
      · rw [if_pos h1, if_pos (by push_cast at h1 ⊢; omega)]
      · rw [if_neg h1, if_neg (by push_cast at h1 ⊢; omega)]

theorem dictFind?_pyRange_map {g : Int → β} {a b x : Int} :
    dictFind? ((pyRange a b).map fun y => (y, g y)) x =
      if a ≤ x ∧ x < b then some (g x) else none := by
  rw [pyRange, dictFind?_pyRangeAux_map]
  by_cases h : a ≤ x ∧ x < b
  · rw [if_pos h, if_pos (by omega)]
  · rw [if_neg h, if_neg (by omega)]

theorem pyRange_singleton (a : Int) : pyRange a (a + 1) = [a] := by
  rw [pyRange]
  rw [show (a + 1 - a).toNat = 1 from by omega]
  rfl

theorem pyRange_empty_self (a : Int) : pyRange a a = [] := by
  rw [pyRange]
  rw [show (a - a).toNat = 0 from by omega]
  rfl

/-! ## C6: rank formula -/

theorem nextIndexOf_sorted_count (c : Int) (name : String) :
    ∀ {s : List (Int × String)}, s.Pairwise descPairLe → (s.map Prod.snd).Nodup →
      (c, name) ∈ s →
      nextIndexOf name (s.map Prod.snd) =
        some (s.countP (fun q => decide (c < q.1) || (decide (q.1 = c) && pyStrLt name q.2))) := by
  intro s
  induction s with
  | nil => intro _ _ h; simp at h
  | cons hd tl ih =>
    intro hpair hnod hmem
    obtain ⟨c0, n0⟩ := hd
    rw [List.pairwise_cons] at hpair
    rw [List.map_cons, List.nodup_cons] at hnod
    by_cases hn : n0 = name
    · subst hn
      have hceq : c = c0 := by
        rcases List.mem_cons.mp hmem with heq | hmem' 
        · exact congrArg Prod.fst heq
        · exact absurd (List.mem_map_of_mem Prod.snd hmem') hnod.1
      subst hceq
      rw [List.map_cons, nextIndexOf, if_pos rfl, List.countP_cons]
      have hhead : (decide (c < c) || (decide (c = c) && pyStrLt n0 n0)) = false := by
        simp [pyStrLt_irrefl]
      have htail : tl.countP
          (fun q => decide (c < q.1) || (decide (q.1 = c) && pyStrLt n0 q.2)) = 0 := by
        rw [List.countP_eq_zero]
        intro q hq
        rcases hpair.1 q hq with hlt | ⟨hceq, hs | hs⟩
        · simp only [Bool.or_eq_true, decide_eq_true_eq, Bool.and_eq_true]
          push_neg
          exact ⟨by omega, fun h => absurd h (by omega)⟩
        · simp only [Bool.or_eq_true, decide_eq_true_eq, Bool.and_eq_true]
          push_neg
          refine ⟨by omega, fun _ => ?_⟩
          rw [pyStrLt_asymm hs]
          simp
        · exact absurd (hs ▸ List.mem_map_of_mem Prod.snd hq) hnod.1
      rw [hhead, htail]
      rfl
    · have hmem' : (c, name) ∈ tl := by
        rcases List.mem_cons.mp hmem with heq | h' 
        · exact absurd (congrArg Prod.snd heq).symm hn
        · exact h'
      have hrec := ih hpair.2 hnod.2 hmem' 
      rw [List.map_cons, nextIndexOf, if_neg hn, hrec, List.countP_cons]
      have hhead : (decide (c < c0) || (decide (c0 = c) && pyStrLt name n0)) = true := by
        rcases hpair.1 _ hmem' with hlt | ⟨hceq, hs | hs⟩
        · simp [hlt]
        · simp only [Bool.or_eq_true, decide_eq_true_eq, Bool.and_eq_true]
          exact Or.inr ⟨hceq.symm, hs⟩
        · exact absurd hs.symm hn
      rw [hhead]
      rfl

/-- C6: for a name with positive count in a year, the rank computed from the
year's sorted table equals 1 plus the number of entries with strictly
greater count, or equal count and lexicographically greater name; ranks are
1-based (an empty greater-set gives rank 1). -/
theorem c6_rank_formula (d : Dict String Int) (name : String) (c : Int)
    (hmem : (name, c) ∈ d) (hnod : (d.map Prod.fst).Nodup) (_hpos : 0 < c) :
    rank_in_year (sortOneYear d) name =
      some (1 + (sortOneYear d).countP
        (fun q => decide (c < q.2) || (decide (q.2 = c) && pyStrLt name q.1))) := by
  haveI := descPairLe_total
  haveI := descPairLe_trans
  have hpair : (List.insertionSort descPairLe (d.map fun p => (p.2, p.1))).Pairwise descPairLe :=
    List.sorted_insertionSort descPairLe _
  have hsnd : ((d.map fun p => (p.2, p.1)).map Prod.snd) = d.map Prod.fst := by
    simp [List.map_map, Function.comp]
  have hpermS : ((List.insertionSort descPairLe (d.map fun p => (p.2, p.1))).map Prod.snd).Perm
      ((d.map fun p => (p.2, p.1)).map Prod.snd) :=
    (List.perm_insertionSort descPairLe (d.map fun p => (p.2, p.1))).map Prod.snd
  have hnodS :
      ((List.insertionSort descPairLe (d.map fun p => (p.2, p.1))).map Prod.snd).Nodup :=
    hpermS.nodup_iff.mpr (by rw [hsnd]; exact hnod)
  have hmemS : (c, name) ∈ List.insertionSort descPairLe (d.map fun p => (p.2, p.1)) := by
    rw [List.mem_insertionSort]
    exact List.mem_map_of_mem (fun p => (p.2, p.1)) hmem
  have hidx := nextIndexOf_sorted_count c name hpair hnodS hmemS
  rw [sortOneYear, rank_in_year, List.map_map]
  rw [show (Prod.fst ∘ fun p : Int × String => (p.2, p.1)) = Prod.snd from rfl]
  rw [hidx, List.countP_map]
  rw [show ((fun q : String × Int =>
      decide (c < q.2) || (decide (q.2 = c) && pyStrLt name q.1)) ∘
        fun p : Int × String => (p.2, p.1)) =
      (fun q : Int × String => decide (c < q.1) || (decide (q.1 = c) && pyStrLt name q.2)) from
    rfl]
  simp [Nat.add_comm]

/-- C6 witness: in the example year table, the rank of max (count 15, behind
sam at equal count) is 2. -/
theorem c6_rank_formula_witness :
    rank_in_year (sortOneYear [("sam", 15), ("max", 15)]) "max" = some 2 := by
  have h := c6_rank_formula [("sam", 15), ("max", 15)] "max" 15 (by simp) (by simp) (by norm_num)
  exact h.trans (by rfl)

/-! ## C7: year totals -/

theorem dictFind?_map_value [DecidableEq α] (f : α → β → γ) (l : Dict α β) (k : α) :
    dictFind? (l.map fun p => (p.1, f p.1 p.2)) k = (dictFind? l k).map (f k) := by
  induction l with
  | nil => rfl
  | cons p rest ih =>
    obtain ⟨k', v⟩ := p
    by_cases hk : k' = k
    · subst hk
      simp [dictFind?]
    · simp [dictFind?, hk, ih]

/-- C7: for every year of the dataset's global range, the entry of
year_total_counts is exactly the sum of the counts in that year's table,
and a year with no contributing records (absent from the sparse table)
has an empty mapping, hence total 0. -/
theorem c7_year_total_consistency (t : YearNameCounts) (ync : YearNameCounts)
    (h : sort_year_name_counts t = .ok ync) (year_min year_max : Int)
    (hmin : (t.map Prod.fst).min? = some year_min)
    (hmax : (t.map Prod.fst).max? = some year_max) :
    ∀ y, year_min ≤ y → y ≤ year_max →
      ∃ d, dictFind? ync y = some d ∧
        dictFind? (year_total_counts ync) y = some (sumValues d) ∧
        (dictFind? t y = none → sumValues d = 0) := by
  intro y hy1 hy2
  rw [sort_year_name_counts, hmin, hmax] at h
  have hync : ync = (pyRange year_min (year_max + 1)).map
      fun y => (y, sortOneYear (dictGetD t y [])) := ((Except.ok.injEq _ _).mp h).symm
  subst hync
  refine ⟨sortOneYear (dictGetD t y []), ?_, ?_, ?_⟩
  · rw [dictFind?_pyRange_map, if_pos ⟨hy1, by omega⟩]
  · rw [year_total_counts]
    rw [show ((pyRange year_min (year_max + 1)).map
        fun y => (y, sortOneYear (dictGetD t y []))).map
          (fun p => (p.1, sumValues p.2)) =
        ((pyRange year_min (year_max + 1)).map
          fun y => (y, sumValues (sortOneYear (dictGetD t y [])))) from by
      rw [List.map_map]; rfl]
    rw [dictFind?_pyRange_map, if_pos ⟨hy1, by omega⟩]
  · intro hnone
    rw [dictGetD, hnone]
    rfl

/-- C7 witness: on the one-year example table, the derived total is the sum
30 of the year-2000 counts. -/
theorem c7_year_total_consistency_witness :
    ∃ d, dictFind? [((2000 : Int), [("sam", 15), ("max", 15)])] 2000 = some d ∧
      dictFind? (year_total_counts [(2000, [("sam", 15), ("max", 15)])]) 2000 =
        some (sumValues d) ∧
      (dictFind? [((2000 : Int), ([("sam", 15), ("max", 15)] : Dict String Int))] 2000 =
          none → sumValues d = 0) :=
  c7_year_total_consistency [(2000, [("sam", 15), ("max", 15)])]
    [(2000, [("sam", 15), ("max", 15)])] (by rfl) 2000 2000 (by rfl) (by rfl) 2000
    le_rfl le_rfl

/-! ## C8: dense name table -/

theorem mapE_ok_mem {f : α → Except ε β} :
    ∀ {l : List α} {r : List β}, mapE f l = .ok r → ∀ b ∈ r, ∃ a ∈ l, f a = .ok b := by
  intro l
  induction l with
  | nil =>
    intro r h b hb
    rw [mapE] at h
    cases h
    simp at hb
  | cons x xs ih =>
    intro r h b hb
    rw [mapE] at h
    rcases hfx : f x with e | y
    · rw [hfx] at h
      cases h
    · rw [hfx] at h
      rcases hrec : mapE f xs with e | ys
      · rw [hrec] at h
        cases h
      · rw [hrec] at h
        cases h
        rcases List.mem_cons.mp hb with rfl | hb
        · exact ⟨x, List.mem_cons_self _ _, hfx⟩
        · rcases ih hrec b hb with ⟨a, ha, hfa⟩
          exact ⟨a, List.mem_cons_of_mem _ ha, hfa⟩

/-- C8: every entry of the sorted name table covers exactly the name's own
inclusive observed year range, with one entry per year and zero filled in
for years without occurrences. -/
theorem c8_name_table_dense (t : NameYearCounts) (res : NameYearCounts)
    (h : sort_name_year_counts t = .ok res) (name : String) (yc : Dict Int Int)
    (hmem : (name, yc) ∈ res) :
    ∃ d year_min year_max, (name, d) ∈ t ∧
      (d.map Prod.fst).min? = some year_min ∧
      (d.map Prod.fst).max? = some year_max ∧
      yc.length = (year_max - year_min + 1).toNat ∧
      (∀ y, year_min ≤ y → y ≤ year_max → dictFind? yc y = some (dictGetD d y 0)) ∧
      (∀ y, year_min ≤ y → y ≤ year_max → dictFind? d y = none → dictFind? yc y = some 0) := by
  rcases mapE_ok_mem h _ hmem with ⟨p, hp, hfp⟩
  obtain ⟨name0, d⟩ := p
  rcases hmin : (d.map Prod.fst).min? with _ | year_min
  · rw [hmin] at hfp
    rcases hmax : (d.map Prod.fst).max? with _ | year_max <;> rw [hmax] at hfp <;> cases hfp
  rcases hmax : (d.map Prod.fst).max? with _ | year_max
  · rw [hmin, hmax] at hfp
    cases hfp
  rw [hmin, hmax] at hfp
  rw [Except.ok.injEq] at hfp
  have hname : name0 = name := congrArg Prod.fst hfp
  have hyc : yc = (pyRange year_min (year_max + 1)).map fun y => (y, dictGetD d y 0) :=
    (congrArg Prod.snd hfp).symm
  subst hname
  refine ⟨d, year_min, year_max, hp, hmin, hmax, ?_, ?_, ?_⟩
  · rw [hyc, List.length_map, pyRange_length]
    omega
  · intro y h1 h2
    rw [hyc, dictFind?_pyRange_map, if_pos ⟨h1, by omega⟩]
  · intro y h1 h2 hnone
    rw [hyc, dictFind?_pyRange_map, if_pos ⟨h1, by omega⟩, dictGetD, hnone]
    rfl

/-- C8 witness: the name observed in 1900 and 1902 only gets the dense range
1900-1902 with a zero entry for 1901. -/
theorem c8_name_table_dense_witness :
    ∃ d year_min year_max,
      (("ann", d) : String × Dict Int Int) ∈ [("ann", [(1900, 3), (1902, 4)])] ∧
      (d.map Prod.fst).min? = some year_min ∧
      (d.map Prod.fst).max? = some year_max ∧
      ([((1900 : Int), (3 : Int)), (1901, 0), (1902, 4)] : Dict Int Int).length =
        (year_max - year_min + 1).toNat ∧
      (∀ y, year_min ≤ y → y ≤ year_max →
        dictFind? ([((1900 : Int), (3 : Int)), (1901, 0), (1902, 4)] : Dict Int Int) y =
          some (dictGetD d y 0)) ∧
      (∀ y, year_min ≤ y → y ≤ year_max → dictFind? d y = none →
        dictFind? ([((1900 : Int), (3 : Int)), (1901, 0), (1902, 4)] : Dict Int Int) y =
          some 0) :=
  c8_name_table_dense [("ann", [(1900, 3), (1902, 4)])]
    [("ann", [(1900, 3), (1901, 0), (1902, 4)])] (by rfl) "ann"
    [(1900, 3), (1901, 0), (1902, 4)] (by simp)

/-! ## C2: pooled falling-frequency heuristic -/

theorem tabLookup_some [DecidableEq α] [DecidableEq β] {t : Dict α (Dict β Int)}
    {k : α} {j : β} {v : Int} (h : tabLookup t k j = some v) :
    ∃ d, dictFind? t k = some d ∧ dictFind? d j = some v := by
  rw [tabLookup] at h
  rcases hk : dictFind? t k with _ | d
  · rw [hk] at h
    cases h
  · rw [hk] at h
    exact ⟨d, rfl, h⟩

theorem fallingLoop_sum (ync : YearNameCounts) (ytc : YearTotalCounts) (name : String)
    (f g : Int → Int) :
    ∀ (years : List Int) (nc tc : Int),
      (∀ y ∈ years, tabLookup ync y name = some (f y)) →
      (∀ y ∈ years, dictFind? ytc y = some (g y)) →
      fallingLoop ync ytc name years nc tc =
        .ok (nc + (years.map f).sum, tc + (years.map g).sum) := by
  intro years
  induction years with
  | nil => intro nc tc _ _; simp [fallingLoop]
  | cons y ys ih =>
    intro nc tc h1 h2
    rcases tabLookup_some (h1 y (List.mem_cons_self _ _)) with ⟨d, hd, hdv⟩
    simp only [fallingLoop, hd, hdv, h2 y (List.mem_cons_self _ _)]
    rw [ih (nc + f y) (tc + g y) (fun z hz => h1 z (List.mem_cons_of_mem _ hz))
      (fun z hz => h2 z (List.mem_cons_of_mem _ hz))]
    simp [add_assoc]

/-- C2: is_name_frequency_falling splits the window at
mid = yearStart + (yearEnd - yearStart + 2) // 2 into [yearStart, mid) and
[mid, yearEnd], pools counts over totals per half, and returns true iff the
early pooled frequency exceeds (1 + tolerance) times the late one; on the
example data the early half pools to 0.02, the late to 0.01, and tolerance
0.25 yields true. -/
theorem c2_falling_pooled_frequency :
    (∀ (ync : YearNameCounts) (ytc : YearTotalCounts) (name : String)
        (year_min year_max year_mid : Int) (tolerance : ℚ) (f g : Int → Int),
      year_mid = year_min + Int.fdiv (year_max - year_min + 2) 2 →
      year_min ≤ year_max →
      (∀ y ∈ pyRange year_min (year_max + 1), tabLookup ync y name = some (f y)) →
      (∀ y ∈ pyRange year_min (year_max + 1), dictFind? ytc y = some (g y)) →
      ((pyRange year_min year_mid).map g).sum ≠ 0 →
      ((pyRange year_mid (year_max + 1)).map g).sum ≠ 0 →
      is_name_frequency_falling name year_min year_max ync ytc tolerance =
        .ok (decide
          ((((pyRange year_min year_mid).map f).sum : ℚ) /
              (((pyRange year_min year_mid).map g).sum : ℚ) >
            (1 + tolerance) *
              ((((pyRange year_mid (year_max + 1)).map f).sum : ℚ) /
                (((pyRange year_mid (year_max + 1)).map g).sum : ℚ))))) ∧
    is_name_frequency_falling "x" 1990 1999 fallingExampleYnc fallingExampleYtc (1/4) =
      .ok true := by
  have main : ∀ (ync : YearNameCounts) (ytc : YearTotalCounts) (name : String)
      (year_min year_max year_mid : Int) (tolerance : ℚ) (f g : Int → Int),
      year_mid = year_min + Int.fdiv (year_max - year_min + 2) 2 →
      year_min ≤ year_max →
      (∀ y ∈ pyRange year_min (year_max + 1), tabLookup ync y name = some (f y)) →
      (∀ y ∈ pyRange year_min (year_max + 1), dictFind? ytc y = some (g y)) →
      ((pyRange year_min year_mid).map g).sum ≠ 0 →
      ((pyRange year_mid (year_max + 1)).map g).sum ≠ 0 →
      is_name_frequency_falling name year_min year_max ync ytc tolerance =
        .ok (decide
          ((((pyRange year_min year_mid).map f).sum : ℚ) /
              (((pyRange year_min year_mid).map g).sum : ℚ) >
            (1 + tolerance) *
              ((((pyRange year_mid (year_max + 1)).map f).sum : ℚ) /
                (((pyRange year_mid (year_max + 1)).map g).sum : ℚ)))) := by
    intro ync ytc name year_min year_max year_mid tolerance f g hmid hle h1 h2 hs1 hs2
    have hediv : year_mid = year_min + (year_max - year_min + 2) / 2 := by
      rw [hmid, Int.fdiv_eq_ediv _ (by norm_num)]
    have hmid_lb : year_min ≤ year_mid := by omega
    have hmid_ub : year_mid ≤ year_max + 1 := by omega
    have hsub1 : ∀ y ∈ pyRange year_min year_mid, y ∈ pyRange year_min (year_max + 1) := by
      intro y hy
      rw [mem_pyRange] at hy ⊢
      omega
    have hsub2 : ∀ y ∈ pyRange year_mid (year_max + 1), y ∈ pyRange year_min (year_max + 1) := by
      intro y hy
      rw [mem_pyRange] at hy ⊢
      omega
    have hl1 := fallingLoop_sum ync ytc name f g (pyRange year_min year_mid) 0 0
      (fun z hz => h1 z (hsub1 z hz)) (fun z hz => h2 z (hsub1 z hz))
    have hl2 := fallingLoop_sum ync ytc name f g (pyRange year_mid (year_max + 1)) 0 0
      (fun z hz => h1 z (hsub2 z hz)) (fun z hz => h2 z (hsub2 z hz))
    rw [zero_add, zero_add] at hl1 hl2
    simp only [is_name_frequency_falling]
    rw [← hmid]
    simp only [hl1, hl2, pydiv, if_neg hs1, if_neg hs2]
  refine ⟨main, ?_⟩
  have h := main fallingExampleYnc fallingExampleYtc "x" 1990 1999 1995 (1/4)
    (fun y => if y ≤ 1994 then 2 else 1) (fun _ => 100)
    (by decide) (by norm_num) (by decide) (by decide) (by decide) (by decide)
  rw [h]
  congr 1
  rw [decide_eq_true_eq]
  rw [show pyRange 1990 1995 = [1990, 1991, 1992, 1993, 1994] from rfl,
      show pyRange 1995 (1999 + 1) = [1995, 1996, 1997, 1998, 1999] from rfl]
  norm_num

/-- C2 witness: the same pooled frequencies with tolerance 0 also compare as
falling (0.02 > 1 * 0.01). -/
theorem c2_falling_pooled_frequency_witness :
    is_name_frequency_falling "x" 1990 1999 fallingExampleYnc fallingExampleYtc 0 =
      .ok true := by
  have h := c2_falling_pooled_frequency.1 fallingExampleYnc fallingExampleYtc "x" 1990 1999
    1995 0 (fun y => if y ≤ 1994 then 2 else 1) (fun _ => 100)
    (by decide) (by norm_num) (by decide) (by decide) (by decide) (by decide)
  rw [h]
  congr 1
  rw [decide_eq_true_eq]
  rw [show pyRange 1990 1995 = [1990, 1991, 1992, 1993, 1994] from rfl,
      show pyRange 1995 (1999 + 1) = [1995, 1996, 1997, 1998, 1999] from rfl]
  norm_num

/-! ## C10: degenerate one-year window -/

/-- C10: both halves of the falling-window split are non-empty exactly when
yearEnd exceeds yearStart; on a one-year window the split point is
yearStart + 1, the late half is empty, its pooled total is 0, and the
late-half frequency computation raises ZeroDivisionError. -/
theorem c10_one_year_window :
    (∀ year_min year_max : Int,
      (pyRange year_min (year_min + Int.fdiv (year_max - year_min + 2) 2) ≠ [] ∧
       pyRange (year_min + Int.fdiv (year_max - year_min + 2) 2) (year_max + 1) ≠ []) ↔
      year_min < year_max) ∧
    (∀ (ync : YearNameCounts) (ytc : YearTotalCounts) (name : String) (tolerance : ℚ)
      (y : Int) (d : Dict String Int) (c t : Int),
      dictFind? ync y = some d → dictFind? d name = some c →
      dictFind? ytc y = some t → t ≠ 0 →
      is_name_frequency_falling name y y ync ytc tolerance = .error .zeroDivisionError) := by
  constructor
  · intro year_min year_max
    rw [pyRange_ne_nil, pyRange_ne_nil, Int.fdiv_eq_ediv _ (by norm_num)]
    omega
  · intro ync ytc name tolerance y d c t hd hc ht htne
    simp only [is_name_frequency_falling]
    rw [show y + Int.fdiv (y - y + 2) 2 = y + 1 from by
      rw [show y - y + 2 = 2 from by omega]; rfl]
    rw [pyRange_singleton, pyRange_empty_self]
    simp only [fallingLoop, hd, hc, ht, zero_add]
    simp only [pydiv, if_neg htne, if_pos rfl]
    simp

/-- C10 witness: a one-year window on concrete tables raises
ZeroDivisionError. -/
theorem c10_one_year_window_witness :
    is_name_frequency_falling "a" 2000 2000 c5YearTable c5TotalTable (1/4) =
      .error .zeroDivisionError :=
  c10_one_year_window.2 c5YearTable c5TotalTable "a" (1/4) 2000 [("a", 1)] 1 100
    (by rfl) (by rfl) (by rfl) (by norm_num)

/-! ## C3: candidate filter composition -/

theorem filterE_ok_mem {f : α → Except ε Bool} :
    ∀ {l r : List α}, filterE f l = .ok r → ∀ x, x ∈ r ↔ (x ∈ l ∧ f x = .ok true) := by
  intro l
  induction l with
  | nil =>
    intro r h x
    rw [filterE] at h
    cases h
    simp
  | cons a as ih =>
    intro r h x
    rw [filterE] at h
    rcases hfa : f a with e | b
    · rw [hfa] at h
      cases h
    · rw [hfa] at h
      rcases hrec : filterE f as with e | rest
      · rw [hrec] at h
        cases h
      · rw [hrec] at h
        cases b
        · cases h
          constructor
          · intro hx
            have hx' := (ih hrec x).mp hx
            exact ⟨List.mem_cons_of_mem _ hx'.1, hx'.2⟩
          · rintro ⟨hmem, hfx⟩
            rcases List.mem_cons.mp hmem with rfl | hin
            · rw [hfa] at hfx
              cases hfx
            · exact (ih hrec x).mpr ⟨hin, hfx⟩
        · cases h
          constructor
          · intro hx
            rcases List.mem_cons.mp hx with rfl | hin
            · exact ⟨List.mem_cons_self _ _, hfa⟩
            · have hx' := (ih hrec x).mp hin
              exact ⟨List.mem_cons_of_mem _ hx'.1, hx'.2⟩
          · rintro ⟨hmem, hfx⟩
            rcases List.mem_cons.mp hmem with rfl | hin
            · exact List.mem_cons_self _ _
            · exact List.mem_cons_of_mem _ ((ih hrec x).mpr ⟨hin, hfx⟩)

theorem keep_name_ok_true_iff (year : Int) (min_frequency : ℚ) (ync : YearNameCounts)
    (ytc : YearTotalCounts) (name : String) :
    keep_name year min_frequency ync ytc name = .ok true ↔
      (is_name_frequency_above_threshold name min_frequency (year - 50 + 1) year ync ytc =
        .ok true ∧
       is_name_frequency_falling name (year - 10 + 1) year ync ytc (1/4) = .ok false ∧
       is_name_frequency_falling name (year - 20 + 1) year ync ytc (1/4) = .ok false ∧
       is_name_frequency_falling name (year - 50 + 1) year ync ytc (1/4) = .ok false) := by
  rcases h1 : is_name_frequency_above_threshold name min_frequency (year - 50 + 1) year
      ync ytc with e | b
  · simp only [keep_name, h1]
    simp
  cases b
  · simp only [keep_name, h1]
    simp
  rcases h2 : is_name_frequency_falling name (year - 10 + 1) year ync ytc (1/4) with e | b
  · simp only [keep_name, h1, h2]
    simp
  cases b
  case ok.true.ok.false =>
    rcases h3 : is_name_frequency_falling name (year - 20 + 1) year ync ytc (1/4) with e | b
    · simp only [keep_name, h1, h2, h3]
      simp
    cases b
    case ok.false =>
      rcases h4 : is_name_frequency_falling name (year - 50 + 1) year ync ytc (1/4) with e | b
      · simp only [keep_name, h1, h2, h3, h4]
        simp
      cases b
      · simp only [keep_name, h1, h2, h3, h4]
        simp
      · simp only [keep_name, h1, h2, h3, h4]
        simp
    case ok.true =>
      simp only [keep_name, h1, h2, h3]
      simp
  case ok.true.ok.true =>
    simp only [keep_name, h1, h2]
    simp

/-- C3: a candidate (one of the first num_candidates names of the target
year) is kept exactly when it is sustained at the pool's minimum frequency
over [Y-49, Y] and not falling over [Y-9, Y], [Y-19, Y] and [Y-49, Y],
where the minimum frequency is the year-Y frequency of the last (lowest
ranked) candidate. -/
theorem c3_candidate_filter (num_candidates : Nat) (year : Int)
    (ync : YearNameCounts) (ytc : YearTotalCounts) (kept : List String)
    (h : show_filtered_top_names num_candidates year ync ytc = .ok kept) :
    ∃ year_table last_name c t,
      dictFind? ync year = some year_table ∧
      ((year_table.map Prod.fst).take num_candidates).getLast? = some last_name ∧
      dictFind? year_table last_name = some c ∧
      dictFind? ytc year = some t ∧ t ≠ 0 ∧
      (∀ name, name ∈ kept ↔
        (name ∈ (year_table.map Prod.fst).take num_candidates ∧
         is_name_frequency_above_threshold name ((c : ℚ) / (t : ℚ)) (year - 49) year ync ytc =
           .ok true ∧
         is_name_frequency_falling name (year - 9) year ync ytc (1/4) = .ok false ∧
         is_name_frequency_falling name (year - 19) year ync ytc (1/4) = .ok false ∧
         is_name_frequency_falling name (year - 49) year ync ytc (1/4) = .ok false)) := by
  rw [show_filtered_top_names] at h
  rcases h1 : dictFind? ync year with _ | year_table
  · simp only [h1] at h
    exact Except.noConfusion h
  simp only [h1] at h
  rcases h2 : ((year_table.map Prod.fst).take num_candidates).getLast? with _ | last_name
  · simp only [h2] at h
    exact Except.noConfusion h
  simp only [h2] at h
  rcases h3 : dictFind? year_table last_name with _ | c
  · simp only [h3] at h
    exact Except.noConfusion h
  simp only [h3] at h
  rcases h4 : dictFind? ytc year with _ | t
  · simp only [h4] at h
    exact Except.noConfusion h
  simp only [h4] at h
  by_cases h5 : t = 0
  · simp only [pydiv, if_pos h5] at h
    exact Except.noConfusion h
  simp only [pydiv, if_neg h5] at h
  refine ⟨year_table, last_name, c, t, rfl, h2, h3, rfl, h5, ?_⟩
  intro name
  have e50 : year - 50 + 1 = year - 49 := by omega
  have e10 : year - 10 + 1 = year - 9 := by omega
  have e20 : year - 20 + 1 = year - 19 := by omega
  rw [filterE_ok_mem h name, keep_name_ok_true_iff, e50, e10, e20]

/-- C3 witness: with one candidate whose sustained check fails immediately
(the name is absent in the first year of the 50-year window), the filter
keeps nothing, and the characterization applies. -/
theorem c3_candidate_filter_witness :
    ∃ year_table last_name c t,
      dictFind? [((1951 : Int), ([] : Dict String Int)), (2000, [("a", 5)])] 2000 =
        some year_table ∧
      ((year_table.map Prod.fst).take 1).getLast? = some last_name ∧
      dictFind? year_table last_name = some c ∧
      dictFind? [((2000 : Int), (10 : Int))] 2000 = some t ∧ t ≠ 0 ∧
      (∀ name, name ∈ ([] : List String) ↔
        (name ∈ (year_table.map Prod.fst).take 1 ∧
         is_name_frequency_above_threshold name ((c : ℚ) / (t : ℚ)) (2000 - 49) 2000
           [(1951, []), (2000, [("a", 5)])] [(2000, 10)] = .ok true ∧
         is_name_frequency_falling name (2000 - 9) 2000
           [(1951, []), (2000, [("a", 5)])] [(2000, 10)] (1/4) = .ok false ∧
         is_name_frequency_falling name (2000 - 19) 2000
           [(1951, []), (2000, [("a", 5)])] [(2000, 10)] (1/4) = .ok false ∧
         is_name_frequency_falling name (2000 - 49) 2000
           [(1951, []), (2000, [("a", 5)])] [(2000, 10)] (1/4) = .ok false)) :=
  c3_candidate_filter 1 2000 [(1951, []), (2000, [("a", 5)])] [(2000, 10)] [] (by rfl)

/-! ## C5: no out-of-range detection -/

/-- C5 (code bug): calling is_name_frequency_above_threshold on the window
[2000, 2005] of a dataset whose years end at 2001 returns False, computed
from the in-range prefix only: no InvalidRangeError (or any range check)
exists, and the out-of-range years are never reached. -/
theorem c5_no_range_check :
    (c5YearTable.map Prod.fst).max? = some 2001 ∧ ((2001 : Int) < 2005) ∧
    is_name_frequency_above_threshold "a" (1/2) 2000 2005 c5YearTable c5TotalTable =
      .ok false := by
  refine ⟨rfl, by norm_num, ?_⟩
  rw [is_name_frequency_above_threshold]
  rw [show pyRange 2000 (2005 + 1) = [2000, 2001, 2002, 2003, 2004, 2005] from rfl]
  norm_num [aboveLoop, dictFind?, pydiv, c5YearTable, c5TotalTable]

/-! ## C4: unguarded division on a zero-total year -/

/-- C4 (code bug): the pipeline on records observed only in 1900 and 1902
produces a zero total for 1901, and the frequency series of the name raises
ZeroDivisionError at 1901 instead of emitting frequency 0. -/
theorem c4_zero_total_division :
    sort_year_name_counts (accumulateRecords "M" c4Records).1 = .ok c4YearTable ∧
    sort_name_year_counts (accumulateRecords "M" c4Records).2 = .ok c4NameTable ∧
    dictFind? (year_total_counts c4YearTable) 1901 = some 0 ∧
    frequency_series "ann" c4NameTable (year_total_counts c4YearTable) =
      .error .zeroDivisionError := by
  exact ⟨rfl, rfl, rfl, rfl⟩

/-! ## C9: order-independence of accumulation -/

theorem accumulateRecords_fst (gender : String) (l : List RawRecord) :
    (accumulateRecords gender l).1 =
      l.foldl (stepTab (fun r => r.year) (fun r => strLower r.name) gender) [] := by
  suffices h : ∀ tabs : YearNameCounts × NameYearCounts,
      (l.foldl (processRecord gender) tabs).1 =
        l.foldl (stepTab (fun r => r.year) (fun r => strLower r.name) gender) tabs.1 from
    h ([], [])
  induction l with
  | nil => intro tabs; rfl
  | cons r rest ih =>
    intro tabs
    rw [List.foldl_cons, List.foldl_cons, ih]
    congr 1
    rw [stepTab]
    by_cases hg : r.gender = gender
    · by_cases hc : 0 < r.count
      · rw [if_pos ⟨hg, hc⟩]
        have hc' : ¬ r.count ≤ 0 := by omega
        simp [processRecord, hg, hc']
      · rw [if_neg (by tauto)]
        have hc' : r.count ≤ 0 := by omega
        simp [processRecord, hg, hc']
    · rw [if_neg (by tauto)]
      simp [processRecord, hg]

theorem accumulateRecords_snd (gender : String) (l : List RawRecord) :
    (accumulateRecords gender l).2 =
      l.foldl (stepTab (fun r => strLower r.name) (fun r => r.year) gender) [] := by
  suffices h : ∀ tabs : YearNameCounts × NameYearCounts,
      (l.foldl (processRecord gender) tabs).2 =
        l.foldl (stepTab (fun r => strLower r.name) (fun r => r.year) gender) tabs.2 from
    h ([], [])
  induction l with
  | nil => intro tabs; rfl
  | cons r rest ih =>
    intro tabs
    rw [List.foldl_cons, List.foldl_cons, ih]
    congr 1
    rw [stepTab]
    by_cases hg : r.gender = gender
    · by_cases hc : 0 < r.count
      · rw [if_pos ⟨hg, hc⟩]
        have hc' : ¬ r.count ≤ 0 := by omega
        simp [processRecord, hg, hc']
      · rw [if_neg (by tauto)]
        have hc' : r.count ≤ 0 := by omega
        simp [processRecord, hg, hc']
    · rw [if_neg (by tauto)]
      simp [processRecord, hg]

theorem dictFind?_bumpVal [DecidableEq α] (d : Dict α Int) (k k' : α) (c : Int) :
    dictFind? (bumpVal d k c) k' =
      if k' = k then some (dictGetD d k 0 + c) else dictFind? d k' := by
  induction d with
  | nil =>
    by_cases hk : k' = k
    · subst hk
      simp [bumpVal, dictFind?, dictGetD]
    · simp [bumpVal, dictFind?, dictGetD, hk, Ne.symm hk]
  | cons p rest ih =>
    obtain ⟨k0, v⟩ := p
    by_cases h0 : k0 = k
    · subst h0
      rw [show bumpVal ((k0, v) :: rest) k0 c = (k0, v + c) :: rest from by simp [bumpVal]]
      by_cases hk : k' = k0
      · subst hk
        simp [dictFind?, dictGetD]
      · simp [dictFind?, hk, Ne.symm hk]
    · rw [show bumpVal ((k0, v) :: rest) k c = (k0, v) :: bumpVal rest k c from by
        simp [bumpVal, h0]]
      by_cases hk : k' = k0
      · subst hk
        have hknk : ¬ k' = k := fun h => h0 (h ▸ rfl)
        simp [dictFind?, hknk]
      · rw [show dictFind? ((k0, v) :: bumpVal rest k c) k' = dictFind? (bumpVal rest k c) k'
          from by simp [dictFind?, Ne.symm hk], ih]
        rw [show dictGetD ((k0, v) :: rest) k 0 = dictGetD rest k 0 from by
          simp [dictGetD, dictFind?, h0]]
        rw [show dictFind? ((k0, v) :: rest) k' = dictFind? rest k' from by
          simp [dictFind?, Ne.symm hk]]

theorem dictFind?_bumpTab [DecidableEq α] [DecidableEq β] (t : Dict α (Dict β Int))
    (k : α) (j : β) (c : Int) (k' : α) :
    dictFind? (bumpTab t k j c) k' =
      if k' = k then some (bumpVal (dictGetD t k []) j c) else dictFind? t k' := by
  induction t with
  | nil =>
    by_cases hk : k' = k
    · subst hk
      simp [bumpTab, dictFind?, dictGetD]
    · simp [bumpTab, dictFind?, dictGetD, hk, Ne.symm hk]
  | cons p rest ih =>
    obtain ⟨k0, d⟩ := p
    by_cases h0 : k0 = k
    · subst h0
      rw [show bumpTab ((k0, d) :: rest) k0 j c = (k0, bumpVal d j c) :: rest from by
        simp [bumpTab]]
      by_cases hk : k' = k0
      · subst hk
        simp [dictFind?, dictGetD]
      · simp [dictFind?, hk, Ne.symm hk]
    · rw [show bumpTab ((k0, d) :: rest) k j c = (k0, d) :: bumpTab rest k j c from by
        simp [bumpTab, h0]]
      by_cases hk : k' = k0
      · subst hk
        have hknk : ¬ k' = k := fun h => h0 (h ▸ rfl)
        simp [dictFind?, hknk]
      · rw [show dictFind? ((k0, d) :: bumpTab rest k j c) k' = dictFind? (bumpTab rest k j c) k'
          from by simp [dictFind?, Ne.symm hk], ih]
        rw [show dictGetD ((k0, d) :: rest) k [] = dictGetD rest k [] from by
          simp [dictGetD, dictFind?, h0]]
        rw [show dictFind? ((k0, d) :: rest) k' = dictFind? rest k' from by
          simp [dictFind?, Ne.symm hk]]

theorem tabLookup_eq_getD [DecidableEq α] [DecidableEq β] (t : Dict α (Dict β Int))
    (k : α) (j : β) : tabLookup t k j = dictFind? (dictGetD t k []) j := by
  rw [tabLookup, dictGetD]
  rcases dictFind? t k with _ | d
  · rfl
  · rfl

theorem tabVal_bumpTab [DecidableEq α] [DecidableEq β] (t : Dict α (Dict β Int))
    (k0 : α) (j0 : β) (c : Int) (k : α) (j : β) :
    tabVal (bumpTab t k0 j0 c) k j = tabVal t k j + (if k = k0 ∧ j = j0 then c else 0) := by
  rw [tabVal, tabLookup_eq_getD, dictGetD, dictFind?_bumpTab]
  by_cases hk : k = k0
  · rw [if_pos hk]
    rw [Option.getD_some, dictFind?_bumpVal]
    by_cases hj : j = j0
    · rw [if_pos hj, if_pos ⟨hk, hj⟩, Option.getD_some]
      rw [tabVal, tabLookup_eq_getD, hk, hj]
      rfl
    · rw [if_neg hj, if_neg (by tauto)]
      rw [tabVal, tabLookup_eq_getD, hk, add_zero]
  · rw [if_neg hk, if_neg (by tauto), add_zero]
    rw [tabVal, tabLookup_eq_getD, dictGetD]

theorem tabLookup_isSome_bumpTab [DecidableEq α] [DecidableEq β] (t : Dict α (Dict β Int))
    (k0 : α) (j0 : β) (c : Int) (k : α) (j : β) :
    (tabLookup (bumpTab t k0 j0 c) k j).isSome = true ↔
      ((k = k0 ∧ j = j0) ∨ (tabLookup t k j).isSome = true) := by
  rw [tabLookup_eq_getD, dictGetD, dictFind?_bumpTab]
  by_cases hk : k = k0
  · rw [if_pos hk, Option.getD_some, dictFind?_bumpVal]
    by_cases hj : j = j0
    · simp [hj, hk]
    · rw [if_neg hj]
      rw [tabLookup_eq_getD, hk]
      simp [hj, dictGetD]
  · rw [if_neg hk]
    rw [tabLookup_eq_getD]
    simp [hk, dictGetD]

theorem dictFind?_isSome_bumpTab [DecidableEq α] [DecidableEq β] (t : Dict α (Dict β Int))
    (k0 : α) (j0 : β) (c : Int) (k : α) :
    (dictFind? (bumpTab t k0 j0 c) k).isSome = true ↔
      (k = k0 ∨ (dictFind? t k).isSome = true) := by
  rw [dictFind?_bumpTab]
  by_cases hk : k = k0
  · simp [hk]
  · simp [hk]

theorem tabVal_foldl_stepTab [DecidableEq α] [DecidableEq β] (key1 : RawRecord → α)
    (key2 : RawRecord → β) (gender : String) :
    ∀ (l : List RawRecord) (t : Dict α (Dict β Int)) (k : α) (j : β),
      tabVal (l.foldl (stepTab key1 key2 gender) t) k j =
        tabVal t k j + (l.map (fun r =>
          if r.gender = gender ∧ 0 < r.count ∧ key1 r = k ∧ key2 r = j
          then r.count else 0)).sum := by
  intro l
  induction l with
  | nil =>
    intro t k j
    simp
  | cons r rest ih =>
    intro t k j
    rw [List.foldl_cons, ih, List.map_cons, List.sum_cons, stepTab]
    by_cases hg : r.gender = gender ∧ 0 < r.count
    · rw [if_pos hg, tabVal_bumpTab]
      by_cases hkj : k = key1 r ∧ j = key2 r
      · rw [if_pos hkj, if_pos ⟨hg.1, hg.2, hkj.1.symm, hkj.2.symm⟩]
        ring
      · rw [if_neg hkj, if_neg (fun h => hkj ⟨h.2.2.1.symm, h.2.2.2.symm⟩)]
        ring
    · rw [if_neg hg, if_neg (fun h => hg ⟨h.1, h.2.1⟩)]
      ring

theorem tabLookup_isSome_foldl [DecidableEq α] [DecidableEq β] (key1 : RawRecord → α)
    (key2 : RawRecord → β) (gender : String) :
    ∀ (l : List RawRecord) (t : Dict α (Dict β Int)) (k : α) (j : β),
      (tabLookup (l.foldl (stepTab key1 key2 gender) t) k j).isSome = true ↔
        ((tabLookup t k j).isSome = true ∨
         ∃ r ∈ l, r.gender = gender ∧ 0 < r.count ∧ key1 r = k ∧ key2 r = j) := by
  intro l
  induction l with
  | nil =>
    intro t k j
    simp
  | cons r rest ih =>
    intro t k j
    rw [List.foldl_cons, ih, List.exists_mem_cons_iff, stepTab]
    by_cases hg : r.gender = gender ∧ 0 < r.count
    · rw [if_pos hg, tabLookup_isSome_bumpTab]
      constructor
      · rintro ((⟨hk, hj⟩ | hs) | hex)
        · exact Or.inr (Or.inl ⟨hg.1, hg.2, hk.symm, hj.symm⟩)
        · exact Or.inl hs
        · exact Or.inr (Or.inr hex)
      · rintro (hs | ⟨h1, h2, h3, h4⟩ | hex)
        · exact Or.inl (Or.inr hs)
        · exact Or.inl (Or.inl ⟨h3.symm, h4.symm⟩)
        · exact Or.inr hex
    · rw [if_neg hg]
      constructor
      · rintro (hs | hex)
        · exact Or.inl hs
        · exact Or.inr (Or.inr hex)
      · rintro (hs | ⟨h1, h2, _⟩ | hex)
        · exact Or.inl hs
        · exact absurd ⟨h1, h2⟩ hg
        · exact Or.inr hex

theorem dictFind?_isSome_foldl [DecidableEq α] [DecidableEq β] (key1 : RawRecord → α)
    (key2 : RawRecord → β) (gender : String) :
    ∀ (l : List RawRecord) (t : Dict α (Dict β Int)) (k : α),
      (dictFind? (l.foldl (stepTab key1 key2 gender) t) k).isSome = true ↔
        ((dictFind? t k).isSome = true ∨
         ∃ r ∈ l, r.gender = gender ∧ 0 < r.count ∧ key1 r = k) := by
  intro l
  induction l with
  | nil =>
    intro t k
    simp
  | cons r rest ih =>
    intro t k
    rw [List.foldl_cons, ih, List.exists_mem_cons_iff, stepTab]
    by_cases hg : r.gender = gender ∧ 0 < r.count
    · rw [if_pos hg, dictFind?_isSome_bumpTab]
      constructor
      · rintro ((hk | hs) | hex)
        · exact Or.inr (Or.inl ⟨hg.1, hg.2, hk.symm⟩)
        · exact Or.inl hs
        · exact Or.inr (Or.inr hex)
      · rintro (hs | ⟨h1, h2, h3⟩ | hex)
        · exact Or.inl (Or.inr hs)
        · exact Or.inl (Or.inl h3.symm)
        · exact Or.inr hex
    · rw [if_neg hg]
      constructor
      · rintro (hs | hex)
        · exact Or.inl hs
        · exact Or.inr (Or.inr hex)
      · rintro (hs | ⟨h1, h2, _⟩ | hex)
        · exact Or.inl hs
        · exact absurd ⟨h1, h2⟩ hg
        · exact Or.inr hex

theorem bool_eq_of_iff {b1 b2 : Bool} (h : b1 = true ↔ b2 = true) : b1 = b2 := by
  cases b1 <;> cases b2 <;> simp_all

theorem option_int_eq {o1 o2 : Option Int} (h1 : o1.isSome = o2.isSome)
    (h2 : o1.getD 0 = o2.getD 0) : o1 = o2 := by
  cases o1 <;> cases o2 <;> simp_all

theorem foldl_stepTab_perm [DecidableEq α] [DecidableEq β] (key1 : RawRecord → α)
    (key2 : RawRecord → β) (gender : String) {l1 l2 : List RawRecord} (hperm : l1.Perm l2) :
    (∀ k j, tabLookup (l1.foldl (stepTab key1 key2 gender) []) k j =
      tabLookup (l2.foldl (stepTab key1 key2 gender) []) k j) ∧
    (∀ k, (dictFind? (l1.foldl (stepTab key1 key2 gender) []) k).isSome =
      (dictFind? (l2.foldl (stepTab key1 key2 gender) []) k).isSome) := by
  constructor
  · intro k j
    have hsome : (tabLookup (l1.foldl (stepTab key1 key2 gender) []) k j).isSome =
        (tabLookup (l2.foldl (stepTab key1 key2 gender) []) k j).isSome := by
      apply bool_eq_of_iff
      rw [tabLookup_isSome_foldl, tabLookup_isSome_foldl]
      constructor
      · rintro (h | ⟨r, hr, hp⟩)
        · exact Or.inl h
        · exact Or.inr ⟨r, hperm.mem_iff.mp hr, hp⟩
      · rintro (h | ⟨r, hr, hp⟩)
        · exact Or.inl h
        · exact Or.inr ⟨r, hperm.mem_iff.mpr hr, hp⟩
    have hval : tabVal (l1.foldl (stepTab key1 key2 gender) []) k j =
        tabVal (l2.foldl (stepTab key1 key2 gender) []) k j := by
      rw [tabVal_foldl_stepTab, tabVal_foldl_stepTab]
      congr 1
      exact List.Perm.sum_eq (hperm.map _)
    exact option_int_eq hsome hval
  · intro k
    apply bool_eq_of_iff
    rw [dictFind?_isSome_foldl, dictFind?_isSome_foldl]
    constructor
    · rintro (h | ⟨r, hr, hp⟩)
      · exact Or.inl h
      · exact Or.inr ⟨r, hperm.mem_iff.mp hr, hp⟩
    · rintro (h | ⟨r, hr, hp⟩)
      · exact Or.inl h
      · exact Or.inr ⟨r, hperm.mem_iff.mpr hr, hp⟩

/-- C9: accumulating any permutation of the raw records produces identical
sparse year and name tables as mappings: the same optional count at every
(year, name) and (name, year) address, and the same key presence, so the
additive merge is order-independent. -/
theorem c9_accumulation_perm_invariant (gender : String) (l1 l2 : List RawRecord)
    (hperm : l1.Perm l2) :
    (∀ y n, tabLookup (accumulateRecords gender l1).1 y n =
      tabLookup (accumulateRecords gender l2).1 y n) ∧
    (∀ n y, tabLookup (accumulateRecords gender l1).2 n y =
      tabLookup (accumulateRecords gender l2).2 n y) ∧
    (∀ y, (dictFind? (accumulateRecords gender l1).1 y).isSome =
      (dictFind? (accumulateRecords gender l2).1 y).isSome) ∧
    (∀ n, (dictFind? (accumulateRecords gender l1).2 n).isSome =
      (dictFind? (accumulateRecords gender l2).2 n).isSome) := by
  have h1 := foldl_stepTab_perm (fun r => r.year) (fun r => strLower r.name) gender hperm
  have h2 := foldl_stepTab_perm (fun r => strLower r.name) (fun r => r.year) gender hperm
  rw [accumulateRecords_fst gender l1, accumulateRecords_fst gender l2,
    accumulateRecords_snd gender l1, accumulateRecords_snd gender l2]
  exact ⟨h1.1, h2.1, h1.2, h2.2⟩

/-- C9 witness: swapping two concrete records leaves both tables unchanged
as mappings. -/
theorem c9_accumulation_perm_invariant_witness :
    (∀ y n, tabLookup (accumulateRecords "M"
        [⟨"CA", "M", 2000, "Sam", 10⟩, ⟨"CA", "M", 2000, "Max", 15⟩]).1 y n =
      tabLookup (accumulateRecords "M"
        [⟨"CA", "M", 2000, "Max", 15⟩, ⟨"CA", "M", 2000, "Sam", 10⟩]).1 y n) ∧
    (∀ n y, tabLookup (accumulateRecords "M"
        [⟨"CA", "M", 2000, "Sam", 10⟩, ⟨"CA", "M", 2000, "Max", 15⟩]).2 n y =
      tabLookup (accumulateRecords "M"
        [⟨"CA", "M", 2000, "Max", 15⟩, ⟨"CA", "M", 2000, "Sam", 10⟩]).2 n y) ∧
    (∀ y, (dictFind? (accumulateRecords "M"
        [⟨"CA", "M", 2000, "Sam", 10⟩, ⟨"CA", "M", 2000, "Max", 15⟩]).1 y).isSome =
      (dictFind? (accumulateRecords "M"
        [⟨"CA", "M", 2000, "Max", 15⟩, ⟨"CA", "M", 2000, "Sam", 10⟩]).1 y).isSome) ∧
    (∀ n, (dictFind? (accumulateRecords "M"
        [⟨"CA", "M", 2000, "Sam", 10⟩, ⟨"CA", "M", 2000, "Max", 15⟩]).2 n).isSome =
      (dictFind? (accumulateRecords "M"
        [⟨"CA", "M", 2000, "Max", 15⟩, ⟨"CA", "M", 2000, "Sam", 10⟩]).2 n).isSome) :=
  c9_accumulation_perm_invariant "M"
    [⟨"CA", "M", 2000, "Sam", 10⟩, ⟨"CA", "M", 2000, "Max", 15⟩]
    [⟨"CA", "M", 2000, "Max", 15⟩, ⟨"CA", "M", 2000, "Sam", 10⟩]
    (List.Perm.swap _ _ _)
